import Mathlib

/-!
Shallow embedding of the task-management core of the repository
(TaskService, TaskRepository, UserRepository, CacheService, TransactionManager)
and proofs about the frozen claims.

Conventions of the embedding:
* JS timestamps (`Date` values, `Date.now()`) are integers (milliseconds).
  Every operation that reads the clock takes the current instant `now` as an
  explicit parameter; `TaskService.create` and `TaskService.update`
  additionally take `fiveYearsFromNow`, the value that
  `new Date(); fiveYearsFromNow.setFullYear(getFullYear() + 5)` computes from
  the same instant (calendar arithmetic itself is not modelled; theorems that
  need it assume `now + 1000 ≤ fiveYearsFromNow`, which a calendar date five
  years ahead always satisfies).
* `crypto.randomUUID()` is an explicit `newId : String` parameter.
* A JS exception is an `Except Err` result; since the mutations of the JS
  objects survive a thrown exception, every service operation returns the
  post-state next to the `Except` result.
* Optional / possibly-absent DTO fields are `Option` values; for string
  fields tested with JS truthiness the empty string plays the falsy role.
* A raw deadline input is `Option (Option Int)`: `none` = field absent
  (or falsy), `some none` = present but `new Date(x)` yields an invalid
  date (`NaN`), `some (some t)` = parses to timestamp `t`.
-/

namespace TaskMgmt

/-- The error kinds of `errors/BaseError.ts` that the task core raises,
plus `internal` for a plain JS `Error` (mapped to 500 by the boundary). -/
inductive Err where
  | validation (msg : String)
  | notFound (msg : String)
  | unauthorized (msg : String)
  | forbidden (msg : String)
  | internal (msg : String)
deriving DecidableEq, Repr

/-- Model of JS `String.prototype.toLowerCase` (character-wise lowering;
identical on the ASCII titles the system handles). -/
def jsToLower (s : String) : String :=
  ⟨s.data.map Char.toLower⟩

/-- Leading-whitespace removal on character lists. -/
def wsDropStart (l : List Char) : List Char :=
  l.dropWhile Char.isWhitespace

/-- Trailing-whitespace removal on character lists. -/
def wsDropEnd (l : List Char) : List Char :=
  (l.reverse.dropWhile Char.isWhitespace).reverse

/-- Model of JS `String.prototype.trim`: strip leading and trailing
whitespace (the claims only involve ASCII whitespace). -/
def jsTrim (s : String) : String :=
  ⟨wsDropEnd (wsDropStart s.data)⟩

/-- Model of JS `s.includes(pat)`: `pat` occurs contiguously in `s`. -/
def jsIncludes (s pat : String) : Bool :=
  decide (pat.data <:+: s.data)

/-- `types/DTOs.ts` `Task`. `deadline` and `createdAt` are millisecond
timestamps. -/
structure Task where
  id : String
  title : String
  description : Option String
  status : String
  deadline : Option Int
  priority : String
  ownerId : String
  createdAt : Int
deriving DecidableEq, Repr

/-- `types/DTOs.ts` `Role`. -/
inductive Role where
  | user
  | admin
deriving DecidableEq, Repr

/-- `types/DTOs.ts` `User`. -/
structure User where
  id : String
  email : String
  password : String
  role : Role
deriving DecidableEq, Repr

/-- `types/DTOs.ts` `CreateTaskDTO`. -/
structure CreateTaskDTO where
  title : String
  description : Option String
  deadline : Option (Option Int)
  priority : Option String
  ownerId : String
deriving DecidableEq, Repr

/-- `types/DTOs.ts` `UpdateTaskDTO` (raw update input). -/
structure UpdateTaskDTO where
  title : Option String
  description : Option String
  status : Option String
  deadline : Option (Option Int)
  priority : Option String
deriving DecidableEq, Repr

/-- The `updateData` record `TaskService.update` hands to
`TaskRepository.update` (a `Partial<Task>` restricted to the five fields
the service ever sets; a `some` field is spread over the stored task). -/
structure TaskPatch where
  title : Option String
  description : Option String
  status : Option String
  deadline : Option Int
  priority : Option String
deriving DecidableEq, Repr

/-- A value stored in the cache: `TaskService` caches single tasks
(under `task:<id>`) and task lists (under `tasks:owner:<ownerId>`);
the JS cache value type is `any`. -/
inductive CacheVal where
  | task (t : Task)
  | tasks (ts : List Task)
deriving DecidableEq, Repr

/-- One entry of `CacheService`: cached data plus absolute expiry. -/
structure CacheEntry where
  data : CacheVal
  expiry : Int
deriving DecidableEq, Repr

/-- The backing `Map<string, {data, expiry}>` of `CacheService`, as an
association list with at most one binding per key. -/
abbrev Cache := List (String × CacheEntry)

/-- `Map.get`. -/
def mapFind (c : Cache) (k : String) : Option CacheEntry :=
  (c.find? (fun p => decide (p.1 = k))).map (fun p => p.2)

/-- `Map.delete`. -/
def mapErase (c : Cache) (k : String) : Cache :=
  c.filter (fun p => decide (p.1 ≠ k))

/-- `Map.set` (insert or overwrite; binding order is irrelevant to lookup,
which is all the service observes). -/
def mapSet (c : Cache) (k : String) (e : CacheEntry) : Cache :=
  (k, e) :: mapErase c k

/-- `CacheService.defaultTTL` (60 seconds). -/
def defaultTTL : Int := 60000

/-- `CacheService.set`: store with absolute expiry `now + ttl`. Call sites
that omit `ttl` in JS pass `defaultTTL` here. -/
def CacheService.set (c : Cache) (key : String) (v : CacheVal) (now ttl : Int) : Cache :=
  mapSet c key ⟨v, now + ttl⟩

/-- `CacheService.get`: `null` on a missing entry; an expired entry is
deleted and reported as `null`; otherwise the stored data is returned.
Returns the possibly-updated backing map next to the result. -/
def CacheService.get (c : Cache) (key : String) (now : Int) : Option CacheVal × Cache :=
  match mapFind c key with
  | none => (none, c)
  | some e => if now > e.expiry then (none, mapErase c key) else (some e.data, c)

/-- `CacheService.invalidate`: unconditional delete of one key. -/
def CacheService.invalidate (c : Cache) (key : String) : Cache :=
  mapErase c key

/-- `CacheService.clear`: drop every entry. -/
def CacheService.clear (_ : Cache) : Cache :=
  ([] : Cache)

/-- `TransactionManager` state: the active flag plus the queued-operations
list. The queued closures are opaque (`Unit` stands for one queued
operation); `addOperation` is never called anywhere in this codebase, so
the list stays empty in every run. -/
structure TransactionManager where
  isActive : Bool
  operations : List Unit
deriving DecidableEq, Repr

/-- `TransactionManager.begin`: set active, clear the queue. -/
def TransactionManager.begin (_ : TransactionManager) : TransactionManager :=
  ⟨true, []⟩

/-- `TransactionManager.commit`: throws when no transaction is active,
else clears the active flag and the queue. -/
def TransactionManager.commit (tm : TransactionManager) : Except String TransactionManager :=
  if tm.isActive then .ok ⟨false, []⟩ else .error "No active transaction to commit"

/-- `TransactionManager.rollback`: throws when no transaction is active,
else clears the active flag and the queue (it never replays or undoes
the queued operations). -/
def TransactionManager.rollback (tm : TransactionManager) : Except String TransactionManager :=
  if tm.isActive then .ok ⟨false, []⟩ else .error "No active transaction to rollback"

/-- `UserRepository.findById`. -/
def UserRepository.findById (users : List User) (id : String) : Option User :=
  users.find? (fun u => decide (u.id = id))

/-- `TaskRepository.save`: append; returns the stored task. -/
def TaskRepository.save (tasks : List Task) (t : Task) : Task × List Task :=
  (t, tasks ++ [t])

/-- `TaskRepository.delete`: filter out the matching id. -/
def TaskRepository.delete (tasks : List Task) (id : String) : List Task :=
  tasks.filter (fun t => decide (t.id ≠ id))

/-- `TaskRepository.findById`. -/
def TaskRepository.findById (tasks : List Task) (id : String) : Option Task :=
  tasks.find? (fun t => decide (t.id = id))

/-- Spread `{ ...task, ...updates }` of a `TaskPatch` over a task: every
field present in the patch overwrites the stored field. -/
def Task.applyPatch (t : Task) (p : TaskPatch) : Task :=
  { id := t.id
    title := p.title.getD t.title
    description := match p.description with
                   | some d => some d
                   | none => t.description
    status := p.status.getD t.status
    deadline := match p.deadline with
                | some d => some d
                | none => t.deadline
    priority := p.priority.getD t.priority
    ownerId := t.ownerId
    createdAt := t.createdAt }

/-- `TaskRepository.update`: find the first task with the given id
(`findIndex`), replace it in place by the spread-merged record; `none`
and the untouched list when no task matches. -/
def TaskRepository.update : List Task → String → TaskPatch → Option Task × List Task
  | [], _, _ => (none, [])
  | t :: ts, id, p =>
    if t.id = id then
      let merged := t.applyPatch p
      (some merged, merged :: ts)
    else
      let r := TaskRepository.update ts id p
      (r.1, t :: r.2)

/-- `TaskRepository.findByOwnerAndTitlePattern`: same owner, stored title
contains the pattern case-insensitively, optionally excluding one id
(a falsy `excludeId` — absent in JS — excludes nothing). -/
def TaskRepository.findByOwnerAndTitlePattern
    (tasks : List Task) (ownerId titlePattern : String) (excludeId : Option String) : List Task :=
  tasks.filter (fun t =>
    decide (t.ownerId = ownerId) &&
    jsIncludes (jsToLower t.title) (jsToLower titlePattern) &&
    (match excludeId with
     | none => true
     | some e => decide (t.id ≠ e)))

/-- `TaskRepository.findByOwner`. -/
def TaskRepository.findByOwner (tasks : List Task) (ownerId : String) : List Task :=
  tasks.filter (fun t => decide (t.ownerId = ownerId))

/-- `TaskRepository.deleteByOwner`: drop the owner's tasks, report how
many went away. -/
def TaskRepository.deleteByOwner (tasks : List Task) (ownerId : String) : Nat × List Task :=
  let remaining := tasks.filter (fun t => decide (t.ownerId ≠ ownerId))
  (tasks.length - remaining.length, remaining)

/-- `TaskRepository.deleteMultiple`: drop every task whose id is listed,
report how many went away. -/
def TaskRepository.deleteMultiple (tasks : List Task) (ids : List String) : Nat × List Task :=
  let remaining := tasks.filter (fun t => !(ids.contains t.id))
  (tasks.length - remaining.length, remaining)

/-- The process-wide mutable state the task core touches. -/
structure SysState where
  taskRepo : List Task
  userRepo : List User
  cache : Cache
  txn : TransactionManager
deriving DecidableEq, Repr

/-- JS `x || dflt` for an optional string: the default replaces an absent
or empty (falsy) value. -/
def jsOr (o : Option String) (dflt : String) : String :=
  match o with
  | none => dflt
  | some s => if s = "" then dflt else s

/-- JS truthiness filter: keep a present, non-empty string. -/
def jsTruthy (o : Option String) : Option String :=
  match o with
  | none => none
  | some s => if s = "" then none else some s

/-- The `catch` block of a transactional region:
`transactionManager.rollback(); throw error;`. When rollback itself threw
(impossible here, since `begin` always precedes), its plain `Error` would
replace the original one. -/
def rollbackWith {α : Type} (st : SysState) (e : Err) : Except Err α × SysState :=
  match TransactionManager.rollback st.txn with
  | .ok tm => (.error e, { st with txn := tm })
  | .error m => (.error (.internal m), st)

/-- The `commit` at the end of a transactional region, with the
(here unreachable) catch-and-rollback of a commit failure. -/
def commitWith {α : Type} (st : SysState) (a : α) : Except Err α × SysState :=
  match TransactionManager.commit st.txn with
  | .ok tm => (.ok a, { st with txn := tm })
  | .error m => rollbackWith st (.internal m)

/-- The shared deadline validation of `TaskService.create` and
`TaskService.update` (the two methods repeat it verbatim): an absent
(or falsy) deadline passes; an unparseable one, one strictly earlier than
`now`, or one later than `fiveYearsFromNow` is rejected with the
corresponding message. -/
def deadlineErr (deadline : Option (Option Int)) (now fiveYearsFromNow : Int) : Option String :=
  match deadline with
  | none => none
  | some none => some "Invalid deadline date format"
  | some (some d) =>
    if d < now then some "Deadline cannot be in the past"
    else if d > fiveYearsFromNow then some "Deadline cannot be more than 5 years in the future"
    else none

/-- `dto.description && dto.description.length > 500` (`create`): the
truthiness guard skips the check for an absent or empty description. -/
def descTooLong (o : Option String) : Bool :=
  match o with
  | none => false
  | some d => !(d = "" : Bool) && decide (d.length > 500)

/-- `dto.priority && !['LOW','MEDIUM','HIGH'].includes(dto.priority)`. -/
def priorityBad (o : Option String) : Bool :=
  match o with
  | none => false
  | some p => !(p = "" : Bool) && !(["LOW", "MEDIUM", "HIGH"].contains p)

/-- `dto.status && !['TODO','IN_PROGRESS','DONE','CANCELLED'].includes(dto.status)`
(`update` only). -/
def statusBad (o : Option String) : Bool :=
  match o with
  | none => false
  | some s => !(s = "" : Bool) && !(["TODO", "IN_PROGRESS", "DONE", "CANCELLED"].contains s)

/-- The field validations at the top of `TaskService.create`, in source
order, producing the first failure (if any): title required, trimmed
title length at least 3, raw title length at most 100, description at
most 500, deadline checks, priority enum check. -/
def createValidationErr (dto : CreateTaskDTO) (now fiveYearsFromNow : Int) : Option Err :=
  if dto.title = "" then some (.validation "Title is required")
  else if (jsTrim dto.title).length < 3 then
    some (.validation "Title must be at least 3 characters long")
  else if dto.title.length > 100 then
    some (.validation "Title must not exceed 100 characters")
  else if descTooLong dto.description then
    some (.validation "Description must not exceed 500 characters")
  else
    match deadlineErr dto.deadline now fiveYearsFromNow with
    | some m => some (.validation m)
    | none =>
      if priorityBad dto.priority then
        some (.validation "Priority must be LOW, MEDIUM, or HIGH")
      else none

/-- `TaskService.create`: field validation, then a transactional region
that checks the owner exists, checks for a similar-titled task of the
same owner, constructs and persists the task, and commits. -/
def TaskService.create (dto : CreateTaskDTO) (st : SysState) (newId : String)
    (now fiveYearsFromNow : Int) : Except Err Task × SysState :=
  match createValidationErr dto now fiveYearsFromNow with
  | some e => (.error e, st)
  | none =>
    let st1 := { st with txn := TransactionManager.begin st.txn }
    match UserRepository.findById st1.userRepo dto.ownerId with
    | none => rollbackWith st1 (.notFound "Owner not found")
    | some _ =>
      let similar := TaskRepository.findByOwnerAndTitlePattern
        st1.taskRepo dto.ownerId (jsTrim dto.title) none
      if similar.length > 0 then
        rollbackWith st1 (.validation "A task with similar title already exists for this user")
      else
        let task : Task :=
          { id := newId
            title := jsTrim dto.title
            description := dto.description.map jsTrim
            status := "TODO"
            deadline := match dto.deadline with
                        | some (some d) => some d
                        | _ => none
            priority := jsOr dto.priority "MEDIUM"
            ownerId := dto.ownerId
            createdAt := now }
        let saved := TaskRepository.save st1.taskRepo task
        commitWith { st1 with taskRepo := saved.2 } saved.1

/-- `TaskService.delete`: unconditional repository delete plus single-key
cache invalidation; no existence check, no transaction. -/
def TaskService.delete (id : String) (st : SysState) : Except Err Unit × SysState :=
  let ts := TaskRepository.delete st.taskRepo id
  let c := CacheService.invalidate st.cache ("task:" ++ id)
  (.ok (), { st with taskRepo := ts, cache := c })

/-- `TaskService.deleteByOwner`: owner existence check, then a
transactional region that removes the owner's tasks, clears the whole
cache, commits and returns the removed count. -/
def TaskService.deleteByOwner (ownerId : String) (st : SysState) : Except Err Nat × SysState :=
  match UserRepository.findById st.userRepo ownerId with
  | none => (.error (.notFound "Owner not found"), st)
  | some _ =>
    let st1 := { st with txn := TransactionManager.begin st.txn }
    let r := TaskRepository.deleteByOwner st1.taskRepo ownerId
    let c := CacheService.clear st1.cache
    commitWith { st1 with taskRepo := r.2, cache := c } r.1

/-- `TaskService.deleteMultiple`: rejects an empty id list, then a
transactional region that removes the matching tasks, invalidates each
listed single-task cache key, commits and returns the removed count. -/
def TaskService.deleteMultiple (ids : List String) (st : SysState) : Except Err Nat × SysState :=
  if ids.isEmpty then (.error (.validation "At least one task ID required"), st)
  else
    let st1 := { st with txn := TransactionManager.begin st.txn }
    let r := TaskRepository.deleteMultiple st1.taskRepo ids
    let c := ids.foldl (fun acc id => CacheService.invalidate acc ("task:" ++ id)) st1.cache
    commitWith { st1 with taskRepo := r.2, cache := c } r.1

/-- `TaskService.getById`: cache-first read-through on key `task:<id>`.
The returned value is the untyped cached data (`any` in JS). The final
component counts the Task Store reads the call performed. -/
def TaskService.getById (id : String) (st : SysState) (now : Int) :
    Except Err CacheVal × SysState × Nat :=
  let g := CacheService.get st.cache ("task:" ++ id) now
  let st1 := { st with cache := g.2 }
  match g.1 with
  | some v => (.ok v, st1, 0)
  | none =>
    match TaskRepository.findById st1.taskRepo id with
    | none => (.error (.notFound "Task not found"), st1, 1)
    | some t =>
      let c2 := CacheService.set st1.cache ("task:" ++ id) (.task t) now defaultTTL
      (.ok (.task t), { st1 with cache := c2 }, 1)

/-- The field validations at the top of `TaskService.update`, in source
order, applied only to present fields (status is additionally checked
against its enum). -/
def updateValidationErr (dto : UpdateTaskDTO) (now fiveYearsFromNow : Int) : Option Err :=
  match dto.title with
  | some t =>
    if (jsTrim t).length < 3 then
      some (.validation "Title must be at least 3 characters long")
    else if t.length > 100 then
      some (.validation "Title must not exceed 100 characters")
    else updateValidationErrRest dto now fiveYearsFromNow
  | none => updateValidationErrRest dto now fiveYearsFromNow
where
  /-- description, deadline, priority and status checks of `update`. -/
  updateValidationErrRest (dto : UpdateTaskDTO) (now fiveYearsFromNow : Int) : Option Err :=
    match dto.description with
    | some d =>
      if d.length > 500 then some (.validation "Description must not exceed 500 characters")
      else updateValidationErrTail dto now fiveYearsFromNow
    | none => updateValidationErrTail dto now fiveYearsFromNow
  /-- deadline, priority and status checks of `update`. -/
  updateValidationErrTail (dto : UpdateTaskDTO) (now fiveYearsFromNow : Int) : Option Err :=
    match deadlineErr dto.deadline now fiveYearsFromNow with
    | some m => some (.validation m)
    | none =>
      if priorityBad dto.priority then
        some (.validation "Priority must be LOW, MEDIUM, or HIGH")
      else if statusBad dto.status then
        some (.validation "Status must be TODO, IN_PROGRESS, DONE, or CANCELLED")
      else none

/-- The `updateData` record `TaskService.update` builds: trimmed title and
description when present, status / deadline / priority only when truthy
(an unparseable deadline never reaches this point — validation already
rejected it, so the `some none` arm is dead). -/
def buildPatch (dto : UpdateTaskDTO) : TaskPatch :=
  { title := dto.title.map jsTrim
    description := dto.description.map jsTrim
    status := jsTruthy dto.status
    deadline := match dto.deadline with
                | some (some d) => some d
                | _ => none
    priority := jsTruthy dto.priority }

/-- `TaskService.update`: field validation, then a transactional region
that loads the task, re-runs the duplicate-title check (excluding the
task itself) when the title changes, merges the patch in the repository,
invalidates the single-task cache key and commits. -/
def TaskService.update (id : String) (dto : UpdateTaskDTO) (st : SysState)
    (now fiveYearsFromNow : Int) : Except Err Task × SysState :=
  match updateValidationErr dto now fiveYearsFromNow with
  | some e => (.error e, st)
  | none =>
    let st1 := { st with txn := TransactionManager.begin st.txn }
    match TaskRepository.findById st1.taskRepo id with
    | none => rollbackWith st1 (.notFound "Task not found")
    | some existing =>
      let dupFound : Bool :=
        match dto.title with
        | some t =>
          decide ((TaskRepository.findByOwnerAndTitlePattern
            st1.taskRepo existing.ownerId (jsTrim t) (some id)).length > 0)
        | none => false
      if dupFound then
        rollbackWith st1 (.validation "A task with similar title already exists for this user")
      else
        let r := TaskRepository.update st1.taskRepo id (buildPatch dto)
        match r.1 with
        | none => rollbackWith { st1 with taskRepo := r.2 } (.notFound "Task not found")
        | some updated =>
          let c := CacheService.invalidate st1.cache ("task:" ++ id)
          commitWith { st1 with taskRepo := r.2, cache := c } updated


/-- One Coordinator operation, as a relation between the pre- and
post-state. The `createStep` constructor carries the guarantee of
`crypto.randomUUID()` that the generated id is fresh. -/
inductive Step : SysState → SysState → Prop where
  | createStep (st : SysState) (dto : CreateTaskDTO) (newId : String) (now fy : Int)
      (hfresh : ∀ t ∈ st.taskRepo, t.id ≠ newId) :
      Step st (TaskService.create dto st newId now fy).2
  | updateStep (st : SysState) (id : String) (dto : UpdateTaskDTO) (now fy : Int) :
      Step st (TaskService.update id dto st now fy).2
  | deleteStep (st : SysState) (id : String) :
      Step st (TaskService.delete id st).2
  | deleteByOwnerStep (st : SysState) (ownerId : String) :
      Step st (TaskService.deleteByOwner ownerId st).2
  | deleteMultipleStep (st : SysState) (ids : List String) :
      Step st (TaskService.deleteMultiple ids st).2

/-- States reachable from an empty Task Store (arbitrary users, cache and
transaction flag) through Coordinator operations. -/
inductive Reach : SysState → Prop where
  | init (st : SysState) (h : st.taskRepo = []) : Reach st
  | step (st st' : SysState) (h : Reach st) (hs : Step st st') : Reach st'

/-- A registered user for the concrete scenarios. -/
def user1 : User :=
  { id := "u1", email := "u1@example.com", password := "h", role := Role.user }

/-- Empty Task Store, one registered user, empty cache, idle transaction. -/
def st0 : SysState :=
  { taskRepo := [], userRepo := [user1], cache := [], txn := ⟨false, []⟩ }

/-- A five-years-from-now bound used by the concrete scenarios. -/
def fy0 : Int := 157800000000

/-- Create DTO titled "Write report" for owner u1. -/
def dtoWriteReport : CreateTaskDTO :=
  { title := "Write report", description := none, deadline := none,
    priority := none, ownerId := "u1" }

/-- Create DTO titled "report writing" for owner u1. -/
def dtoReportWriting : CreateTaskDTO :=
  { title := "report writing", description := none, deadline := none,
    priority := none, ownerId := "u1" }

/-- Create DTO titled "Report" for owner u1. -/
def dtoReport : CreateTaskDTO :=
  { title := "Report", description := none, deadline := none,
    priority := none, ownerId := "u1" }

/-- State after creating "Write report" in `st0`. -/
def stWR : SysState := (TaskService.create dtoWriteReport st0 "t1" 0 fy0).2

/-- State after additionally creating "report writing" in `stWR`. -/
def stRW : SysState := (TaskService.create dtoReportWriting stWR "t2" 0 fy0).2

/-- Create DTO titled "abc" for owner u1. -/
def dtoAbc : CreateTaskDTO :=
  { title := "abc", description := none, deadline := none,
    priority := none, ownerId := "u1" }

/-- Create DTO titled "abcd" for owner u1. -/
def dtoAbcd : CreateTaskDTO :=
  { title := "abcd", description := none, deadline := none,
    priority := none, ownerId := "u1" }

/-- State after creating "abc" in `st0`. -/
def stAbc : SysState := (TaskService.create dtoAbc st0 "ta" 0 fy0).2

/-- State after additionally creating "abcd" in `stAbc`. -/
def stAbcd : SysState := (TaskService.create dtoAbcd stAbc "tb" 0 fy0).2

/-- The relation the reachable-state analysis maintains between two
stored tasks: distinct ids (generated ids are unique), and, when the
owner is shared, distinct lowercased titles. -/
def TaskRel (a b : Task) : Prop :=
  a.id ≠ b.id ∧ (a.ownerId = b.ownerId → jsToLower a.title ≠ jsToLower b.title)

/-- Invariant on the Task Store contents: pairwise `TaskRel`, and every
stored title fixed under trimming (the service stores trimmed titles). -/
def TaskInv (l : List Task) : Prop :=
  l.Pairwise TaskRel ∧ ∀ t ∈ l, jsTrim t.title = t.title

/-! ### Lemmas about the cache backing map -/

theorem mapFind_set_self (c : Cache) (k : String) (e : CacheEntry) :
    mapFind (mapSet c k e) k = some e := by
  simp [mapFind, mapSet, List.find?_cons]

theorem mapFind_erase_self (c : Cache) (k : String) :
    mapFind (mapErase c k) k = none := by
  induction c with
  | nil => rfl
  | cons p rest ih =>
    by_cases h : p.1 = k
    · rw [show mapErase (p :: rest) k = mapErase rest k by
        simp [mapErase, List.filter_cons, h]]
      exact ih
    · rw [show mapErase (p :: rest) k = p :: mapErase rest k by
        simp [mapErase, List.filter_cons, h]]
      rw [show mapFind (p :: mapErase rest k) k = mapFind (mapErase rest k) k by
        simp [mapFind, List.find?_cons, h]]
      exact ih

/-- **C8** — The cache contract: `set` stores the value under the key with
absolute expiry `now + ttl`; `get` returns the stored data exactly when an
entry is present and unexpired, returns `null` when the key is absent, and
on a present-but-expired entry returns `null` and deletes the entry;
`invalidate` removes the entry unconditionally, so a `get` right after an
`invalidate` (with no intervening `set`) misses. -/
theorem c8_cache_contract (c : Cache) (key : String) (v : CacheVal) (now ttl now2 : Int) :
    mapFind (CacheService.set c key v now ttl) key = some ⟨v, now + ttl⟩
    ∧ (∀ e : CacheEntry, mapFind c key = some e → ¬ now2 > e.expiry →
        CacheService.get c key now2 = (some e.data, c))
    ∧ (mapFind c key = none → CacheService.get c key now2 = (none, c))
    ∧ (∀ e : CacheEntry, mapFind c key = some e → now2 > e.expiry →
        CacheService.get c key now2 = (none, mapErase c key))
    ∧ mapFind (CacheService.invalidate c key) key = none
    ∧ (CacheService.get (CacheService.invalidate c key) key now2).1 = none := by
  refine ⟨?_, ?_, ?_, ?_, ?_, ?_⟩
  · exact mapFind_set_self c key ⟨v, now + ttl⟩
  · intro e he hexp
    simp [CacheService.get, he, hexp]
  · intro he
    simp [CacheService.get, he]
  · intro e he hexp
    simp [CacheService.get, he, hexp]
  · exact mapFind_erase_self c key
  · simp [CacheService.get, CacheService.invalidate, mapFind_erase_self]

/-- Witness for C8 at concrete inputs: a fresh `set` is a hit before its
expiry, and an `invalidate` of the same key makes the next `get` miss. -/
theorem c8_cache_contract_witness :
    mapFind (CacheService.set [] "task:a" (CacheVal.tasks []) 0 100) "task:a"
      = some ⟨CacheVal.tasks [], 100⟩
    ∧ CacheService.get [("task:a", (⟨CacheVal.tasks [], 100⟩ : CacheEntry))] "task:a" 50
      = (some (CacheVal.tasks []), [("task:a", ⟨CacheVal.tasks [], 100⟩)])
    ∧ (CacheService.get
        (CacheService.invalidate [("task:a", (⟨CacheVal.tasks [], 100⟩ : CacheEntry))] "task:a")
        "task:a" 50).1 = none := by
  refine ⟨(c8_cache_contract [] "task:a" (CacheVal.tasks []) 0 100 50).1, ?_, ?_⟩
  · exact (c8_cache_contract [("task:a", ⟨CacheVal.tasks [], 100⟩)] "task:a"
      (CacheVal.tasks []) 0 100 50).2.1 ⟨CacheVal.tasks [], 100⟩ (by decide) (by decide)
  · exact (c8_cache_contract [("task:a", ⟨CacheVal.tasks [], 100⟩)] "task:a"
      (CacheVal.tasks []) 0 100 50).2.2.2.2.2

/-- **C7** — After a `getById` that missed the cache, read the task from
the Task Store and cached it (one store read), a second `getById` for the
same id within the TTL window, with no intervening operation, returns the
identical cached value, leaves the state untouched and performs no
additional Task Store read. -/
theorem c7_getById_cached_read (id : String) (st : SysState) (now now2 : Int)
    (v : CacheVal) (st1 : SysState)
    (h1 : TaskService.getById id st now = (.ok v, st1, 1))
    (h2 : now2 ≤ now + defaultTTL) :
    TaskService.getById id st1 now2 = (.ok v, st1, 0) := by
  simp only [TaskService.getById] at h1
  split at h1
  · simp at h1
  · split at h1
    · simp at h1
    · next t heq =>
      simp only [Prod.mk.injEq, Except.ok.injEq] at h1
      obtain ⟨hv, hst, -⟩ := h1
      subst hv
      subst hst
      simp only [TaskService.getById, CacheService.set, CacheService.get, mapFind_set_self,
        not_lt.mpr h2, if_false]

/-- Witness for C7: in the two-task state, a first read of task "ta" at
time 10 fills the cache; the read at time 20 is served from it. -/
theorem c7_getById_cached_read_witness :
    TaskService.getById "ta" (TaskService.getById "ta" stAbcd 10).2.1 20
      = (.ok (CacheVal.task
          { id := "ta", title := "abc", description := none, status := "TODO",
            deadline := none, priority := "MEDIUM", ownerId := "u1", createdAt := 0 }),
         (TaskService.getById "ta" stAbcd 10).2.1, 0) :=
  c7_getById_cached_read "ta" stAbcd 10 20
    (CacheVal.task
      { id := "ta", title := "abc", description := none, status := "TODO",
        deadline := none, priority := "MEDIUM", ownerId := "u1", createdAt := 0 })
    ((TaskService.getById "ta" stAbcd 10).2.1) (by rfl) (by decide)

/-- **C4** — A create whose dto passes field validation but whose owner id
has no user in the User Store fails with NotFound, and the Task Store is
left exactly as it was (the task is not persisted). -/
theorem c4_create_missing_owner (dto : CreateTaskDTO) (st : SysState)
    (newId : String) (now fy : Int)
    (hv : createValidationErr dto now fy = none)
    (howner : UserRepository.findById st.userRepo dto.ownerId = none) :
    (TaskService.create dto st newId now fy).1 = .error (.notFound "Owner not found")
    ∧ ((TaskService.create dto st newId now fy).2).taskRepo = st.taskRepo := by
  constructor <;>
    simp [TaskService.create, hv, howner, rollbackWith, TransactionManager.begin,
      TransactionManager.rollback]

/-- Witness for C4: creating "abc" for the unregistered owner "u2" in the
one-user state fails NotFound and leaves the (empty) Task Store empty. -/
theorem c4_create_missing_owner_witness :
    (TaskService.create { dtoAbc with ownerId := "u2" } st0 "t9" 0 fy0).1
      = .error (.notFound "Owner not found")
    ∧ ((TaskService.create { dtoAbc with ownerId := "u2" } st0 "t9" 0 fy0).2).taskRepo
      = st0.taskRepo :=
  c4_create_missing_owner { dtoAbc with ownerId := "u2" } st0 "t9" 0 fy0 (by rfl) (by rfl)

/-- **C5** — Title validation in create: a trimmed title shorter than 3
characters is rejected with a Validation error; a raw title longer than
100 characters is rejected with a Validation error; and when the trimmed
length is at least 3, the raw length at most 100, and the remaining field
validations, the owner check and the duplicate check pass, the create
succeeds. -/
theorem c5_create_title_validation (dto : CreateTaskDTO) (st : SysState)
    (newId : String) (now fy : Int) :
    ((jsTrim dto.title).length < 3 →
      ∃ m, (TaskService.create dto st newId now fy).1 = Except.error (.validation m))
    ∧ (dto.title.length > 100 →
      ∃ m, (TaskService.create dto st newId now fy).1 = Except.error (.validation m))
    ∧ (3 ≤ (jsTrim dto.title).length → dto.title.length ≤ 100 →
      descTooLong dto.description = false →
      deadlineErr dto.deadline now fy = none →
      priorityBad dto.priority = false →
      (UserRepository.findById st.userRepo dto.ownerId).isSome = true →
      TaskRepository.findByOwnerAndTitlePattern st.taskRepo dto.ownerId
        (jsTrim dto.title) none = [] →
      ∃ t, (TaskService.create dto st newId now fy).1 = Except.ok t) := by
  refine ⟨?_, ?_, ?_⟩
  · intro h3
    by_cases h0 : dto.title = ""
    · exact ⟨"Title is required", by simp [TaskService.create, createValidationErr, h0]⟩
    · exact ⟨"Title must be at least 3 characters long",
        by simp [TaskService.create, createValidationErr, h0, h3]⟩
  · intro h100
    by_cases h0 : dto.title = ""
    · exact ⟨"Title is required", by simp [TaskService.create, createValidationErr, h0]⟩
    · by_cases h3 : (jsTrim dto.title).length < 3
      · exact ⟨"Title must be at least 3 characters long",
          by simp [TaskService.create, createValidationErr, h0, h3]⟩
      · exact ⟨"Title must not exceed 100 characters",
          by simp [TaskService.create, createValidationErr, h0, h3, h100]⟩
  · intro h3 h100 hdesc hddl hprio howner hdup
    have h0 : dto.title ≠ "" := by
      intro h
      rw [h] at h3
      simp [jsTrim, wsDropStart, wsDropEnd] at h3
    obtain ⟨u, hu⟩ := Option.isSome_iff_exists.mp howner
    have hval : createValidationErr dto now fy = none := by
      simp [createValidationErr, h0, not_lt.mpr h3, not_lt.mpr h100, hdesc, hddl, hprio]
    exact ⟨_, by
      simp [TaskService.create, hval, hu, hdup, TaskRepository.save, commitWith,
        TransactionManager.begin, TransactionManager.commit]
      rfl⟩

/-- Witness for C5: title "ab" is rejected, a 101-character title is
rejected, and "abc" for the registered owner succeeds. -/
theorem c5_create_title_validation_witness :
    (∃ m, (TaskService.create { dtoAbc with title := "ab" } st0 "t1" 0 fy0).1
      = Except.error (.validation m))
    ∧ (∃ m, (TaskService.create { dtoAbc with title := ⟨List.replicate 101 'a'⟩ } st0
        "t1" 0 fy0).1 = Except.error (.validation m))
    ∧ (∃ t, (TaskService.create dtoAbc st0 "t1" 0 fy0).1 = Except.ok t) :=
  ⟨(c5_create_title_validation { dtoAbc with title := "ab" } st0 "t1" 0 fy0).1 (by decide),
   (c5_create_title_validation { dtoAbc with title := ⟨List.replicate 101 'a'⟩ }
      st0 "t1" 0 fy0).2.1 (by decide),
   (c5_create_title_validation dtoAbc st0 "t1" 0 fy0).2.2 (by decide) (by decide)
      (by decide) (by decide) (by decide) (by decide) (by decide)⟩

/-- **C10** — Atomicity of create on error: whenever create returns any
error, the Task Store contents equal their value before the call; every
Task Store mutation happens after the last possible failure point, so the
no-op transaction rollback never has anything to undo. -/
theorem c10_create_error_atomic (dto : CreateTaskDTO) (st : SysState)
    (newId : String) (now fy : Int) (e : Err)
    (h : (TaskService.create dto st newId now fy).1 = .error e) :
    ((TaskService.create dto st newId now fy).2).taskRepo = st.taskRepo := by
  cases hval : createValidationErr dto now fy with
  | some e0 => simp [TaskService.create, hval]
  | none =>
    cases howner : UserRepository.findById st.userRepo dto.ownerId with
    | none =>
      simp [TaskService.create, hval, howner, rollbackWith, TransactionManager.begin,
        TransactionManager.rollback]
    | some u =>
      by_cases hdup : (TaskRepository.findByOwnerAndTitlePattern st.taskRepo dto.ownerId
          (jsTrim dto.title) none).length > 0
      · simp [TaskService.create, hval, howner, hdup, rollbackWith, TransactionManager.begin,
          TransactionManager.rollback]
      · simp [TaskService.create, hval, howner, hdup, commitWith, TransactionManager.begin,
          TransactionManager.commit] at h

/-- Witness for C10: the failing create of a too-short title "ab" leaves
the Task Store as it was. -/
theorem c10_create_error_atomic_witness :
    ((TaskService.create { dtoAbc with title := "ab" } st0 "t7" 0 fy0).2).taskRepo
      = st0.taskRepo :=
  c10_create_error_atomic { dtoAbc with title := "ab" } st0 "t7" 0 fy0
    (.validation "Title must be at least 3 characters long") (by rfl)

/-- Removing the elements failing `p` removes exactly as many elements as
satisfy `p`. -/
theorem length_sub_length_filter_not {α : Type} (p : α → Bool) (l : List α) :
    l.length - (l.filter (fun a => !(p a))).length = (l.filter p).length := by
  induction l with
  | nil => rfl
  | cons a l ih =>
    have hle : (l.filter (fun a => !(p a))).length ≤ l.length :=
      List.length_filter_le _ _
    by_cases h : p a <;> simp [List.filter_cons, h] <;> omega

/-- **C9** — `deleteMultiple` rejects an empty id list with a Validation
error and changes nothing; on a non-empty list it removes from the Task
Store exactly the tasks whose id is listed and returns the number of
tasks actually removed. -/
theorem c9_deleteMultiple_spec (ids : List String) (st : SysState) :
    (ids = [] → TaskService.deleteMultiple ids st
      = (.error (.validation "At least one task ID required"), st))
    ∧ (ids ≠ [] →
      (TaskService.deleteMultiple ids st).1
        = .ok (st.taskRepo.filter (fun t => ids.contains t.id)).length
      ∧ ((TaskService.deleteMultiple ids st).2).taskRepo
        = st.taskRepo.filter (fun t => !(ids.contains t.id))) := by
  constructor
  · intro h
    subst h
    simp [TaskService.deleteMultiple]
  · intro h
    have hne : ids.isEmpty = false := by
      cases ids with
      | nil => exact absurd rfl h
      | cons a l => rfl
    constructor
    · simp [TaskService.deleteMultiple, hne, TaskRepository.deleteMultiple, commitWith,
        TransactionManager.begin, TransactionManager.commit]
      exact length_sub_length_filter_not (fun t => decide (t.id ∈ ids)) st.taskRepo
    · simp [TaskService.deleteMultiple, hne, TaskRepository.deleteMultiple, commitWith,
        TransactionManager.begin, TransactionManager.commit]

/-- Witness for C9: in the two-task state, deleting `[]` is a Validation
error, and deleting `["ta","zz"]` where only "ta" exists returns 1. -/
theorem c9_deleteMultiple_spec_witness :
    TaskService.deleteMultiple ([] : List String) stAbcd
      = (.error (.validation "At least one task ID required"), stAbcd)
    ∧ (TaskService.deleteMultiple ["ta", "zz"] stAbcd).1 = .ok 1 := by
  refine ⟨(c9_deleteMultiple_spec [] stAbcd).1 rfl, ?_⟩
  have h := ((c9_deleteMultiple_spec ["ta", "zz"] stAbcd).2 (by decide)).1
  rw [h]
  rfl

/-- **C6** — `deleteByOwner` fails NotFound (changing nothing) when the
owner does not exist; otherwise it removes exactly the tasks of that
owner, returns the number removed, and empties the whole cache — every
key misses afterwards, so any subsequent `getById` goes back to the Task
Store (performs a store read). -/
theorem c6_deleteByOwner_spec (ownerId : String) (st : SysState) :
    (UserRepository.findById st.userRepo ownerId = none →
      TaskService.deleteByOwner ownerId st = (.error (.notFound "Owner not found"), st))
    ∧ ((UserRepository.findById st.userRepo ownerId).isSome = true →
      (TaskService.deleteByOwner ownerId st).1
        = .ok (st.taskRepo.filter (fun t => decide (t.ownerId = ownerId))).length
      ∧ ((TaskService.deleteByOwner ownerId st).2).taskRepo
        = st.taskRepo.filter (fun t => decide (t.ownerId ≠ ownerId))
      ∧ ((TaskService.deleteByOwner ownerId st).2).cache = []
      ∧ (∀ key now, (CacheService.get ((TaskService.deleteByOwner ownerId st).2).cache key now).1
          = none)
      ∧ (∀ id now, (TaskService.getById id (TaskService.deleteByOwner ownerId st).2 now).2.2
          = 1)) := by
  constructor
  · intro h
    simp [TaskService.deleteByOwner, h]
  · intro h
    obtain ⟨u, hu⟩ := Option.isSome_iff_exists.mp h
    have hrepo : ((TaskService.deleteByOwner ownerId st).2).taskRepo
        = st.taskRepo.filter (fun t => decide (t.ownerId ≠ ownerId)) := by
      simp [TaskService.deleteByOwner, hu, TaskRepository.deleteByOwner, CacheService.clear,
        commitWith, TransactionManager.begin, TransactionManager.commit]
    have hcache : ((TaskService.deleteByOwner ownerId st).2).cache = [] := by
      simp [TaskService.deleteByOwner, hu, TaskRepository.deleteByOwner, CacheService.clear,
        commitWith, TransactionManager.begin, TransactionManager.commit]
    refine ⟨?_, hrepo, hcache, ?_, ?_⟩
    · simp [TaskService.deleteByOwner, hu, TaskRepository.deleteByOwner, CacheService.clear,
        commitWith, TransactionManager.begin, TransactionManager.commit]
      have := length_sub_length_filter_not (fun t => decide (t.ownerId = ownerId)) st.taskRepo
      simpa [decide_not] using this
    · intro key now
      simp [CacheService.get, hcache, mapFind]
    · intro id now
      simp [TaskService.getById, CacheService.get, hcache, mapFind]
      split <;> rfl

/-- Witness for C6: deleting by the unregistered owner "u2" fails
NotFound; deleting by "u1" removes both tasks, returns 2, empties the
cache, and the next `getById` performs a store read. -/
theorem c6_deleteByOwner_spec_witness :
    TaskService.deleteByOwner "u2" stAbcd = (.error (.notFound "Owner not found"), stAbcd)
    ∧ (TaskService.deleteByOwner "u1" stAbcd).1 = .ok 2
    ∧ ((TaskService.deleteByOwner "u1" stAbcd).2).cache = []
    ∧ (TaskService.getById "tb" (TaskService.deleteByOwner "u1" stAbcd).2 5).2.2 = 1 := by
  have h := (c6_deleteByOwner_spec "u1" stAbcd).2 (by decide)
  refine ⟨(c6_deleteByOwner_spec "u2" stAbcd).1 (by rfl), ?_, h.2.2.1, h.2.2.2.2 "tb" 5⟩
  rw [h.1]
  rfl

/-- **C1, counterexample** — The claim says a deadline exactly equal to
the current time is rejected with a Validation error. It is not: the past
check is strict (`deadlineDate < now`), so a create whose deadline equals
`now` (= 5000 here) succeeds. -/
theorem c1_deadline_now_accepted_cex :
    (TaskService.create { dtoAbc with deadline := some (some 5000) } st0 "t1" 5000 fy0).1
      = Except.ok
        { id := "t1", title := "abc", description := none, status := "TODO",
          deadline := some 5000, priority := "MEDIUM", ownerId := "u1",
          createdAt := 5000 } := by
  rfl

/-- **C1, amended** — Deadline validation in create and update: an
unparseable deadline is rejected; a deadline strictly earlier than `now`
is rejected; a deadline exactly equal to `now` is accepted (the past
check is strict); a deadline beyond the five-year bound — in particular
the bound plus one second — is rejected; a deadline one second in the
future is accepted. Whenever the deadline validation produces a message,
create and update fail with exactly that Validation error (provided the
earlier title/description checks passed). -/
theorem c1_deadline_validation_amended (now fy : Int) (hfy : now + 1000 ≤ fy) :
    deadlineErr (some none) now fy = some "Invalid deadline date format"
    ∧ (∀ d : Int, d < now → deadlineErr (some (some d)) now fy
        = some "Deadline cannot be in the past")
    ∧ deadlineErr (some (some now)) now fy = none
    ∧ (∀ d : Int, fy < d → deadlineErr (some (some d)) now fy
        = some "Deadline cannot be more than 5 years in the future")
    ∧ deadlineErr (some (some (fy + 1000))) now fy
        = some "Deadline cannot be more than 5 years in the future"
    ∧ deadlineErr (some (some (now + 1000))) now fy = none
    ∧ (∀ (dto : CreateTaskDTO) (st : SysState) (newId m : String),
        dto.title ≠ "" → ¬ (jsTrim dto.title).length < 3 → ¬ dto.title.length > 100 →
        descTooLong dto.description = false →
        deadlineErr dto.deadline now fy = some m →
        TaskService.create dto st newId now fy = (.error (.validation m), st))
    ∧ (∀ (id : String) (dto : UpdateTaskDTO) (st : SysState) (m : String),
        (∀ t, dto.title = some t → ¬ (jsTrim t).length < 3 ∧ ¬ t.length > 100) →
        (∀ d, dto.description = some d → ¬ d.length > 500) →
        deadlineErr dto.deadline now fy = some m →
        TaskService.update id dto st now fy = (.error (.validation m), st)) := by
  refine ⟨rfl, ?_, ?_, ?_, ?_, ?_, ?_, ?_⟩
  · intro d h
    simp [deadlineErr, h]
  · have h1 : ¬ (now < now) := lt_irrefl now
    have h2 : ¬ (now > fy) := by omega
    simp [deadlineErr, h1, h2]
  · intro d h
    have h1 : ¬ (d < now) := by omega
    have h2 : d > fy := by omega
    simp [deadlineErr, h1, h2]
  · have h1 : ¬ (fy + 1000 < now) := by omega
    have h2 : fy + 1000 > fy := by omega
    simp [deadlineErr, h1, h2]
  · have h1 : ¬ (now + 1000 < now) := by omega
    have h2 : ¬ (now + 1000 > fy) := by omega
    simp [deadlineErr, h1, h2]
  · intro dto st newId m h0 h3 h100 hdesc hddl
    simp [TaskService.create, createValidationErr, h0, h3, h100, hdesc, hddl]
  · intro id dto st m htitle hdesc hddl
    have htail : updateValidationErr.updateValidationErrTail dto now fy
        = some (.validation m) := by
      simp [updateValidationErr.updateValidationErrTail, hddl]
    have hrest : updateValidationErr.updateValidationErrRest dto now fy
        = some (.validation m) := by
      cases hd : dto.description with
      | none => simp [updateValidationErr.updateValidationErrRest, hd, htail]
      | some d => simp [updateValidationErr.updateValidationErrRest, hd, hdesc d hd, htail]
    have hval : updateValidationErr dto now fy = some (.validation m) := by
      cases ht : dto.title with
      | none => simp [updateValidationErr, ht, hrest]
      | some t =>
        obtain ⟨h3, h100⟩ := htitle t ht
        simp [updateValidationErr, ht, h3, h100, hrest]
    simp [TaskService.update, hval]

/-- Witness for the amended C1 at `now = 0`, `fy = 200000`: a deadline of
exactly now is accepted, the bound plus a second is rejected, one second
ahead is accepted, and an unparseable deadline makes create fail with the
format Validation error. -/
theorem c1_deadline_validation_amended_witness :
    deadlineErr (some (some 0)) 0 200000 = none
    ∧ deadlineErr (some (some 201000)) 0 200000
        = some "Deadline cannot be more than 5 years in the future"
    ∧ deadlineErr (some (some 1000)) 0 200000 = none
    ∧ TaskService.create { dtoAbc with deadline := some none } st0 "t1" 0 200000
        = (.error (.validation "Invalid deadline date format"), st0) := by
  have h := c1_deadline_validation_amended 0 200000 (by decide)
  exact ⟨h.2.2.1, h.2.2.2.2.1, h.2.2.2.2.2.1,
    h.2.2.2.2.2.2.1 { dtoAbc with deadline := some none } st0 "t1"
      "Invalid deadline date format" (by decide) (by decide) (by decide) (by decide) (by rfl)⟩

/-- **C2, counterexample** — The claim says creating "report writing"
after "Write report" for the same owner fails with a Validation error.
It does not: the duplicate check asks whether an *existing* title
contains the *new* trimmed title case-insensitively, and "write report"
does not contain "report writing", so the second create succeeds. -/
theorem c2_substring_duplicate_cex :
    (TaskService.create dtoReportWriting stWR "t2" 0 fy0).1
      = Except.ok
        { id := "t2", title := "report writing", description := none, status := "TODO",
          deadline := none, priority := "MEDIUM", ownerId := "u1", createdAt := 0 } := by
  rfl

/-- **C2, amended** — From an empty Task Store, creating "Write report"
for owner u1 succeeds and a subsequent create of "report writing" for the
same owner also succeeds, because the duplicate check only rejects a new
title that occurs case-insensitively as a substring of an existing task's
title; a third create titled "Report" (a case-insensitive substring of
"Write report") does fail with the duplicate Validation error. -/
theorem c2_duplicate_direction_amended :
    (TaskService.create dtoWriteReport st0 "t1" 0 fy0).1
      = Except.ok
        { id := "t1", title := "Write report", description := none, status := "TODO",
          deadline := none, priority := "MEDIUM", ownerId := "u1", createdAt := 0 }
    ∧ (TaskService.create dtoReportWriting stWR "t2" 0 fy0).1
      = Except.ok
        { id := "t2", title := "report writing", description := none, status := "TODO",
          deadline := none, priority := "MEDIUM", ownerId := "u1", createdAt := 0 }
    ∧ (TaskService.create dtoReport stRW "t3" 0 fy0).1
      = Except.error (.validation "A task with similar title already exists for this user") :=
  ⟨rfl, rfl, rfl⟩


/-- `TaskRel` is symmetric. -/
theorem taskRel_symm : Symmetric TaskRel := by
  intro a b h
  exact ⟨Ne.symm h.1, fun ho he => h.2 ho.symm he.symm⟩

/-- Every string contains itself. -/
theorem jsIncludes_self (s : String) : jsIncludes s s = true := by
  simp [jsIncludes]

/-- Leading-whitespace removal is idempotent. -/
theorem wsDropStart_idem (l : List Char) :
    wsDropStart (wsDropStart l) = wsDropStart l := by
  unfold wsDropStart
  exact List.dropWhile_idempotent _ _

/-- Trailing-whitespace removal is idempotent. -/
theorem wsDropEnd_idem (l : List Char) :
    wsDropEnd (wsDropEnd l) = wsDropEnd l := by
  unfold wsDropEnd
  rw [List.reverse_reverse, List.dropWhile_idempotent]

/-- Leading- and trailing-whitespace removal commute. -/
theorem wsDrop_comm (l : List Char) :
    wsDropStart (wsDropEnd l) = wsDropEnd (wsDropStart l) := by
  induction l with
  | nil => rfl
  | cons a l ih =>
    by_cases h : Char.isWhitespace a
    · have hstart : wsDropStart (a :: l) = wsDropStart l := by
        simp [wsDropStart, List.dropWhile_cons, h]
      rw [hstart, ← ih]
      cases hcase : l.reverse.dropWhile Char.isWhitespace with
      | nil =>
        have h1 : wsDropEnd (a :: l) = [] := by
          simp [wsDropEnd, List.dropWhile_append, hcase, List.dropWhile_cons, h]
        have h2 : wsDropEnd l = [] := by
          simp [wsDropEnd, hcase]
        rw [h1, h2]
      | cons c cs =>
        have h1 : wsDropEnd (a :: l) = a :: (c :: cs).reverse := by
          simp [wsDropEnd, List.dropWhile_append, hcase]
        have h2 : wsDropEnd l = (c :: cs).reverse := by
          simp [wsDropEnd, hcase]
        rw [h1, h2]
        simp [wsDropStart, List.dropWhile_cons, h]
    · have hstart : wsDropStart (a :: l) = a :: l := by
        simp [wsDropStart, List.dropWhile_cons, h]
      rw [hstart]
      cases hcase : l.reverse.dropWhile Char.isWhitespace with
      | nil =>
        have h1 : wsDropEnd (a :: l) = [a] := by
          simp [wsDropEnd, List.dropWhile_append, hcase, List.dropWhile_cons, h]
        rw [h1]
        simp [wsDropStart, List.dropWhile_cons, h]
      | cons c cs =>
        have h1 : wsDropEnd (a :: l) = a :: (c :: cs).reverse := by
          simp [wsDropEnd, List.dropWhile_append, hcase]
        rw [h1]
        simp [wsDropStart, List.dropWhile_cons, h]

/-- Trimming is idempotent. -/
theorem jsTrim_idem (s : String) : jsTrim (jsTrim s) = jsTrim s := by
  show String.mk (wsDropEnd (wsDropStart (wsDropEnd (wsDropStart s.data))))
      = String.mk (wsDropEnd (wsDropStart s.data))
  rw [wsDrop_comm, wsDropStart_idem, wsDropEnd_idem]


/-- A member of the repository after `TaskRepository.update` was either
already stored, or is the patched version of a stored task that matched
the id. -/
theorem update_mem {tasks : List Task} {id : String} {p : TaskPatch} {u : Task}
    (h : u ∈ (TaskRepository.update tasks id p).2) :
    u ∈ tasks ∨ ∃ t ∈ tasks, t.id = id ∧ u = t.applyPatch p := by
  induction tasks with
  | nil => simp [TaskRepository.update] at h
  | cons t ts ih =>
    by_cases hid : t.id = id
    · simp only [TaskRepository.update, hid, if_true] at h
      rcases List.mem_cons.mp h with h1 | h1
      · exact Or.inr ⟨t, List.mem_cons_self t ts, hid, h1⟩
      · exact Or.inl (List.mem_cons_of_mem t h1)
    · simp only [TaskRepository.update, hid, if_false] at h
      rcases List.mem_cons.mp h with h1 | h1
      · exact Or.inl (h1 ▸ List.mem_cons_self t ts)
      · rcases ih h1 with h2 | ⟨t', ht', hid', hu⟩
        · exact Or.inl (List.mem_cons_of_mem t h2)
        · exact Or.inr ⟨t', List.mem_cons_of_mem t ht', hid', hu⟩

/-- `TaskRepository.update` preserves pairwise `TaskRel` when the patched
task relates to every stored task with a different id. -/
theorem update_pairwise {tasks : List Task} {id : String} {p : TaskPatch}
    (hpw : tasks.Pairwise TaskRel)
    (hrel : ∀ t ∈ tasks, t.id = id → ∀ u ∈ tasks, u.id ≠ id →
      TaskRel (t.applyPatch p) u) :
    ((TaskRepository.update tasks id p).2).Pairwise TaskRel := by
  induction tasks with
  | nil => exact List.Pairwise.nil
  | cons t ts ih =>
    rcases List.pairwise_cons.mp hpw with ⟨hhead, htail⟩
    by_cases hid : t.id = id
    · simp only [TaskRepository.update, hid, if_true]
      refine List.pairwise_cons.mpr ⟨?_, htail⟩
      intro u hu
      have hune : u.id ≠ id := by
        intro hc
        exact (hhead u hu).1 (by rw [hid, hc])
      exact hrel t (List.mem_cons_self t ts) hid u (List.mem_cons_of_mem t hu) hune
    · simp only [TaskRepository.update, hid, if_false]
      refine List.pairwise_cons.mpr ⟨?_, ?_⟩
      · intro u hu
        rcases update_mem hu with h1 | ⟨t', ht', hid', hu'⟩
        · exact hhead u h1
        · subst hu'
          exact taskRel_symm (hrel t' (List.mem_cons_of_mem t ht') hid' t
            (List.mem_cons_self t ts) hid)
      · exact ih htail (fun t' ht' hid' u hu hune =>
          hrel t' (List.mem_cons_of_mem t ht') hid' u (List.mem_cons_of_mem t hu) hune)

/-- `TaskRepository.update` preserves trimmed titles when the patch title
(if any) is trim-fixed. -/
theorem update_trim {tasks : List Task} {id : String} {p : TaskPatch}
    (htrim : ∀ t ∈ tasks, jsTrim t.title = t.title)
    (hp : ∀ s, p.title = some s → jsTrim s = s) :
    ∀ u ∈ (TaskRepository.update tasks id p).2, jsTrim u.title = u.title := by
  intro u hu
  rcases update_mem hu with h1 | ⟨t', ht', hid', hu'⟩
  · exact htrim u h1
  · subst hu'
    cases hpt : p.title with
    | none => simp [Task.applyPatch, hpt, htrim t' ht']
    | some s => simp [Task.applyPatch, hpt, hp s hpt]


/-- Filtering the store preserves the invariant. -/
theorem inv_filter (p : Task → Bool) (l : List Task) (h : TaskInv l) :
    TaskInv (l.filter p) :=
  ⟨h.1.filter p, fun t ht => h.2 t (List.mem_of_mem_filter ht)⟩

/-- `TaskService.delete` preserves the invariant. -/
theorem inv_delete (id : String) (st : SysState) (h : TaskInv st.taskRepo) :
    TaskInv ((TaskService.delete id st).2).taskRepo := by
  simp only [TaskService.delete, TaskRepository.delete]
  exact inv_filter _ _ h

/-- `TaskService.deleteByOwner` preserves the invariant. -/
theorem inv_deleteByOwner (ownerId : String) (st : SysState) (h : TaskInv st.taskRepo) :
    TaskInv ((TaskService.deleteByOwner ownerId st).2).taskRepo := by
  cases ho : UserRepository.findById st.userRepo ownerId with
  | none => simpa [TaskService.deleteByOwner, ho] using h
  | some u =>
    simp only [TaskService.deleteByOwner, ho, TaskRepository.deleteByOwner, commitWith,
      TransactionManager.begin, TransactionManager.commit, if_true]
    exact inv_filter _ _ h

/-- `TaskService.deleteMultiple` preserves the invariant. -/
theorem inv_deleteMultiple (ids : List String) (st : SysState) (h : TaskInv st.taskRepo) :
    TaskInv ((TaskService.deleteMultiple ids st).2).taskRepo := by
  by_cases he : ids.isEmpty
  · simpa [TaskService.deleteMultiple, he] using h
  · simp only [TaskService.deleteMultiple, he, TaskRepository.deleteMultiple, commitWith,
      TransactionManager.begin, TransactionManager.commit, if_false, Bool.false_eq_true]
    exact inv_filter _ _ h

/-- `TaskService.create` preserves the invariant when the generated id is
fresh: the new task keeps a distinct id, and the empty result of the
duplicate check rules out a same-owner task with an equal lowercased
title (equal titles contain each other). -/
theorem inv_create (dto : CreateTaskDTO) (st : SysState) (newId : String) (now fy : Int)
    (h : TaskInv st.taskRepo) (hfresh : ∀ t ∈ st.taskRepo, t.id ≠ newId) :
    TaskInv ((TaskService.create dto st newId now fy).2).taskRepo := by
  cases hval : createValidationErr dto now fy with
  | some e => simpa [TaskService.create, hval] using h
  | none =>
    cases ho : UserRepository.findById st.userRepo dto.ownerId with
    | none =>
      simpa [TaskService.create, hval, ho, rollbackWith, TransactionManager.begin,
        TransactionManager.rollback] using h
    | some u =>
      by_cases hdup : (TaskRepository.findByOwnerAndTitlePattern st.taskRepo dto.ownerId
          (jsTrim dto.title) none).length > 0
      · simpa [TaskService.create, hval, ho, hdup, rollbackWith, TransactionManager.begin,
          TransactionManager.rollback] using h
      · have hemp : TaskRepository.findByOwnerAndTitlePattern st.taskRepo dto.ownerId
            (jsTrim dto.title) none = [] := by
          have : (TaskRepository.findByOwnerAndTitlePattern st.taskRepo dto.ownerId
              (jsTrim dto.title) none).length = 0 := by omega
          exact List.length_eq_zero.mp this
        have hkey : ∀ t ∈ st.taskRepo, TaskRel t
            { id := newId, title := jsTrim dto.title,
              description := dto.description.map jsTrim, status := "TODO",
              deadline := (match dto.deadline with
                           | some (some d) => some d
                           | _ => none),
              priority := jsOr dto.priority "MEDIUM", ownerId := dto.ownerId,
              createdAt := now } := by
          intro t ht
          refine ⟨hfresh t ht, ?_⟩
          intro howner heq
          have hmem : t ∈ TaskRepository.findByOwnerAndTitlePattern st.taskRepo dto.ownerId
              (jsTrim dto.title) none := by
            refine List.mem_filter.mpr ⟨ht, ?_⟩
            simp [howner, heq, jsIncludes_self]
          rw [hemp] at hmem
          exact absurd hmem (List.not_mem_nil t)
        have hinv2 : TaskInv (st.taskRepo ++
            [{ id := newId, title := jsTrim dto.title,
               description := dto.description.map jsTrim, status := "TODO",
               deadline := (match dto.deadline with
                            | some (some d) => some d
                            | _ => none),
               priority := jsOr dto.priority "MEDIUM", ownerId := dto.ownerId,
               createdAt := now }]) := by
          constructor
          · refine List.pairwise_append.mpr ⟨h.1, List.pairwise_singleton _ _, ?_⟩
            intro a ha b hb
            rw [List.mem_singleton.mp hb]
            exact hkey a ha
          · intro t ht
            rcases List.mem_append.mp ht with h1 | h1
            · exact h.2 t h1
            · rw [List.mem_singleton.mp h1]
              exact jsTrim_idem dto.title
        simpa [TaskService.create, hval, ho, hdup, TaskRepository.save, commitWith,
          TransactionManager.begin, TransactionManager.commit] using hinv2


/-- `TaskService.update` preserves the invariant: ids never change, and
when the title changes the duplicate check (excluding the task itself)
rules out an equal lowercased title among the other same-owner tasks. -/
theorem inv_update (id : String) (dto : UpdateTaskDTO) (st : SysState) (now fy : Int)
    (h : TaskInv st.taskRepo) :
    TaskInv ((TaskService.update id dto st now fy).2).taskRepo := by
  cases hval : updateValidationErr dto now fy with
  | some e => simpa [TaskService.update, hval] using h
  | none =>
    cases hfind : TaskRepository.findById st.taskRepo id with
    | none =>
      simpa [TaskService.update, hval, hfind, rollbackWith, TransactionManager.begin,
        TransactionManager.rollback] using h
    | some existing =>
      have hfind2 : st.taskRepo.find? (fun t => decide (t.id = id)) = some existing := hfind
      have hexmem : existing ∈ st.taskRepo := List.mem_of_find?_eq_some hfind2
      have hexid : existing.id = id := by
        have hpa := List.find?_some hfind2
        simpa using hpa
      have huniq : ∀ t ∈ st.taskRepo, t.id = id → t = existing := by
        intro t ht htid
        by_contra hne
        exact (List.Pairwise.forall taskRel_symm h.1 ht hexmem hne).1 (htid.trans hexid.symm)
      cases htitle : dto.title with
      | none =>
        have hp : (buildPatch dto).title = none := by simp [buildPatch, htitle]
        have hrel : ∀ t ∈ st.taskRepo, t.id = id → ∀ u ∈ st.taskRepo, u.id ≠ id →
            TaskRel (t.applyPatch (buildPatch dto)) u := by
          intro t ht htid u hu hune
          have hne : t ≠ u := fun hc => hune (hc ▸ htid)
          have hr := List.Pairwise.forall taskRel_symm h.1 ht hu hne
          refine ⟨?_, ?_⟩
          · simp only [Task.applyPatch]
            rw [htid]
            exact fun hc => hune hc.symm
          · simp only [Task.applyPatch, hp, Option.getD_none]
            exact hr.2
        have htrm : ∀ s, (buildPatch dto).title = some s → jsTrim s = s := by
          intro s hs
          rw [hp] at hs
          exact absurd hs (by simp)
        have hpair := update_pairwise h.1 hrel
        have htrim2 := @update_trim st.taskRepo id (buildPatch dto) h.2 htrm
        cases hr1 : (TaskRepository.update st.taskRepo id (buildPatch dto)).1 with
        | none =>
          simpa [TaskService.update, hval, hfind, htitle, hr1, rollbackWith,
            TransactionManager.begin, TransactionManager.rollback] using ⟨hpair, htrim2⟩
        | some upd =>
          simpa [TaskService.update, hval, hfind, htitle, hr1, commitWith,
            TransactionManager.begin, TransactionManager.commit] using ⟨hpair, htrim2⟩
      | some ttl =>
        by_cases hdup : (TaskRepository.findByOwnerAndTitlePattern st.taskRepo existing.ownerId
            (jsTrim ttl) (some id)).length > 0
        · simpa [TaskService.update, hval, hfind, htitle, hdup, rollbackWith,
            TransactionManager.begin, TransactionManager.rollback] using h
        · have hemp : TaskRepository.findByOwnerAndTitlePattern st.taskRepo existing.ownerId
              (jsTrim ttl) (some id) = [] := by
            have hz : (TaskRepository.findByOwnerAndTitlePattern st.taskRepo existing.ownerId
                (jsTrim ttl) (some id)).length = 0 := by omega
            exact List.length_eq_zero.mp hz
          have hp : (buildPatch dto).title = some (jsTrim ttl) := by simp [buildPatch, htitle]
          have hrel : ∀ t ∈ st.taskRepo, t.id = id → ∀ u ∈ st.taskRepo, u.id ≠ id →
              TaskRel (t.applyPatch (buildPatch dto)) u := by
            intro t ht htid u hu hune
            have hte : t = existing := huniq t ht htid
            refine ⟨?_, ?_⟩
            · simp only [Task.applyPatch]
              rw [htid]
              exact fun hc => hune hc.symm
            · simp only [Task.applyPatch, hp, Option.getD_some]
              intro howner heq
              have humem : u ∈ TaskRepository.findByOwnerAndTitlePattern st.taskRepo
                  existing.ownerId (jsTrim ttl) (some id) := by
                refine List.mem_filter.mpr ⟨hu, ?_⟩
                have h1 : u.ownerId = existing.ownerId := by rw [← hte, ← howner]
                simp [h1, ← heq, jsIncludes_self, hune]
              rw [hemp] at humem
              exact absurd humem (List.not_mem_nil u)
          have htrm : ∀ s, (buildPatch dto).title = some s → jsTrim s = s := by
            intro s hs
            rw [hp] at hs
            rw [← Option.some_inj.mp hs]
            exact jsTrim_idem ttl
          have hpair := update_pairwise h.1 hrel
          have htrim2 := @update_trim st.taskRepo id (buildPatch dto) h.2 htrm
          cases hr1 : (TaskRepository.update st.taskRepo id (buildPatch dto)).1 with
          | none =>
            simpa [TaskService.update, hval, hfind, htitle, hdup, hr1, rollbackWith,
              TransactionManager.begin, TransactionManager.rollback] using ⟨hpair, htrim2⟩
          | some upd =>
            simpa [TaskService.update, hval, hfind, htitle, hdup, hr1, commitWith,
              TransactionManager.begin, TransactionManager.commit] using ⟨hpair, htrim2⟩


/-- **C3, counterexample** — The claimed invariant (no two distinct
same-owner tasks with substring-overlapping trimmed titles) fails on a
reachable state: creating "abc" and then "abcd" for the same owner both
succeed, because the duplicate check only looks for existing titles that
contain the new one — yet "abc" is a case-insensitive substring of
"abcd". -/
theorem c3_overlap_invariant_cex :
    Reach stAbcd
    ∧ ¬ stAbcd.taskRepo.Pairwise (fun a b => a.ownerId = b.ownerId →
        jsIncludes (jsToLower (jsTrim a.title)) (jsToLower (jsTrim b.title)) = false
        ∧ jsIncludes (jsToLower (jsTrim b.title)) (jsToLower (jsTrim a.title)) = false) := by
  constructor
  · have h1 : Step st0 stAbc := Step.createStep st0 dtoAbc "ta" 0 fy0 (by simp [st0])
    have h2 : Step stAbc stAbcd := Step.createStep stAbc dtoAbcd "tb" 0 fy0 (by decide)
    exact Reach.step stAbc stAbcd (Reach.step st0 stAbc (Reach.init st0 rfl) h1) h2
  · decide

/-- **C3, amended** — In every state reachable from the empty Task Store
through Coordinator operations, no two distinct tasks owned by the same
user have case-insensitively equal trimmed titles (equality, not the
claimed substring-freedom, is what the duplicate check actually
enforces). -/
theorem c3_no_equal_titles_invariant (st : SysState) (h : Reach st) :
    st.taskRepo.Pairwise (fun a b => a.ownerId = b.ownerId →
      jsToLower (jsTrim a.title) ≠ jsToLower (jsTrim b.title)) := by
  have hinv : TaskInv st.taskRepo := by
    induction h with
    | init s hemp =>
      rw [hemp]
      exact ⟨List.Pairwise.nil, by simp⟩
    | step s s2 hr hs ih =>
      cases hs with
      | createStep dto newId now fy hfresh => exact inv_create dto s newId now fy ih hfresh
      | updateStep id dto now fy => exact inv_update id dto s now fy ih
      | deleteStep id => exact inv_delete id s ih
      | deleteByOwnerStep ownerId => exact inv_deleteByOwner ownerId s ih
      | deleteMultipleStep ids => exact inv_deleteMultiple ids s ih
  exact List.Pairwise.imp_of_mem
    (fun ha hb hrel howner => by
      rw [hinv.2 _ ha, hinv.2 _ hb]
      exact hrel.2 howner)
    hinv.1

/-- Witness for the amended C3 on the concrete reachable two-task state:
"abc" and "abcd" are not case-insensitively equal. -/
theorem c3_no_equal_titles_invariant_witness :
    stAbcd.taskRepo.Pairwise (fun a b => a.ownerId = b.ownerId →
      jsToLower (jsTrim a.title) ≠ jsToLower (jsTrim b.title)) :=
  c3_no_equal_titles_invariant stAbcd
    (Reach.step stAbc stAbcd
      (Reach.step st0 stAbc (Reach.init st0 rfl)
        (Step.createStep st0 dtoAbc "ta" 0 fy0 (by simp [st0])))
      (Step.createStep stAbc dtoAbcd "tb" 0 fy0 (by decide)))

end TaskMgmt
